import Mathlib

/-!
# Shallow embedding of the wslog producer client and broker

Definitions are translated from `src/client/src/WSLogClient.ts` (producer:
trace context engine, filter evaluation, reconnect policy) and the broker
server source (route lookup, persistence, broadcast).  Regular-expression
tests are abstracted as boolean predicates on strings; wall-clock readings
are passed in as explicit numeric arguments.
-/

namespace Wslog

/-- A frame on the producer's `functionStack`, as pushed by `traceEntry`:
`{functionName, startTime: Date.now(), level}`. -/
structure Frame where
  functionName : String
  startTime : Nat
  level : Nat
deriving DecidableEq

/-- The compiled filter lists held by a context (`ctx.filters`).  A `RegExp`
is abstracted as its `test` function `String → Bool`. -/
structure Filters where
  regexInclude : List (String → Bool)
  regexExclude : List (String → Bool)

/-- `TraceContext` from `@wslog/shared`: `{threadId, nestingLevel,
functionStack, filters}` (the `source` string is omitted: no claim touches
it). -/
structure TraceContext where
  threadId : Nat
  nestingLevel : Nat
  functionStack : List Frame
  filters : Filters

/-- The client configuration fields that the trace engine reads. -/
structure ClientConfig where
  enableTracing : Bool
  maxTraceLevel : Int

/-- The constructor line `maxTraceLevel: config.maxTraceLevel || -1`: an
absent value, or the JavaScript-falsy value `0`, becomes `-1`. -/
def effectiveMaxTraceLevel (cfg : Option Int) : Int :=
  match cfg with
  | none => -1
  | some v => if v == 0 then -1 else v

/-- The two early returns of `shouldTraceMessage` (the trace-level rule):
`if (maxTraceLevel === 0) return false;`
`if (maxTraceLevel !== -1 && ctx.nestingLevel > maxTraceLevel) return false;` -/
def levelDrop (maxTraceLevel : Int) (nestingLevel : Nat) : Bool :=
  maxTraceLevel == 0 || (maxTraceLevel != -1 && (nestingLevel : Int) > maxTraceLevel)

/-- The pattern stage of `shouldTraceMessage`: include patterns first (if any
exist, the answer is whether some include matches, excludes are never
consulted); otherwise drop iff some exclude matches. -/
def patternFilter (filters : Filters) (message : String) : Bool :=
  if filters.regexInclude.length > 0 then
    filters.regexInclude.any (fun r => r message)
  else if filters.regexExclude.length > 0 then
    if filters.regexExclude.any (fun r => r message) then false else true
  else true

/-- `shouldTraceMessage(message, ctx)` from WSLogClient.ts lines 412-435,
with `this.config.maxTraceLevel` passed explicitly. -/
def shouldTraceMessage (maxTraceLevel : Int) (message : String) (ctx : TraceContext) : Bool :=
  if maxTraceLevel == 0 then false
  else if maxTraceLevel != -1 && (ctx.nestingLevel : Int) > maxTraceLevel then false
  else if ctx.filters.regexInclude.length > 0 then
    ctx.filters.regexInclude.any (fun r => r message)
  else if ctx.filters.regexExclude.length > 0 then
    if ctx.filters.regexExclude.any (fun r => r message) then false else true
  else true

/-- The discriminant of an emitted event: trace events carry
`type ∈ {entry, exit, log, error}` (from `TraceEntry`), and a plain
`log(level, …)` call emits a `LogMessage` (`plainLog` here). -/
inductive EvKind where
  | entry
  | exit
  | traceLog
  | traceError
  | plainLog
deriving DecidableEq

/-- The fields of an emitted event that the claims are about.  `id`,
`timestamp` and `source` are producer bookkeeping not modelled; structured
`data` payloads are abstracted away (`returnValue` is kept pre-stringified). -/
structure Event where
  kind : EvKind
  functionName : Option String
  message : String
  threadId : Nat
  nestingLevel : Nat
  returnValue : Option String
  executionTime : Option Nat
deriving DecidableEq

/-- `trace(type, functionName, message, options)`: gated by
`config.enableTracing` and `shouldTraceMessage(message, ctx)`; when it fires
it builds a `TraceEntry` with `nestingLevel: ctx.nestingLevel` (options never
override the nesting level in this code base). -/
def traceFn (cfg : ClientConfig) (kind : EvKind) (functionName message : String)
    (returnValue : Option String) (executionTime : Option Nat)
    (ctx : TraceContext) : List Event :=
  if !cfg.enableTracing then []
  else if !shouldTraceMessage cfg.maxTraceLevel message ctx then []
  else [{ kind := kind, functionName := some functionName, message := message,
          threadId := ctx.threadId, nestingLevel := ctx.nestingLevel,
          returnValue := returnValue, executionTime := executionTime }]

/-- The message built by `traceEntry`:
`">>> Call ${functionName}${args ? ' ' + stringify(args) : ''}"`
(`args` is carried pre-stringified). -/
def entryMessage (functionName : String) (args : Option String) : String :=
  ">>> Call " ++ functionName ++ (match args with | some a => " " ++ a | none => "")

/-- The message built by `traceExit`: `"<<< Exit ${functionName}"`, then
`" [ERROR]"` when an error is given, else `" " ++ stringify(returnValue)`
when a return value is given. -/
def exitMessage (functionName : String) (returnValue : Option String)
    (error : Option String) : String :=
  "<<< Exit " ++ functionName ++
    (match error with
     | some _ => " [ERROR]"
     | none => match returnValue with | some v => " " ++ v | none => "")

/-- `traceEntry(functionName, args?)` on a resolved context: increment
`nestingLevel`, push `{functionName, startTime: now, level: nestingLevel}`,
then emit the entry trace.  The mutation happens regardless of whether the
trace is emitted. -/
def traceEntryFn (cfg : ClientConfig) (functionName : String) (args : Option String)
    (now : Nat) (ctx : TraceContext) : TraceContext × List Event :=
  let lvl := ctx.nestingLevel + 1
  let ctx' : TraceContext :=
    { ctx with nestingLevel := lvl,
               functionStack := ⟨functionName, now, lvl⟩ :: ctx.functionStack }
  (ctx', traceFn cfg .entry functionName (entryMessage functionName args) none none ctx')

/-- `traceExit(functionName, returnValue?, error?)` on a resolved context:
pop the stack (a pop on an empty stack yields `undefined`, hence
`executionTime` stays absent), emit the exit trace at the still-undecremented
`nestingLevel`, then `ctx.nestingLevel = Math.max(0, ctx.nestingLevel - 1)`
(the `Nat` subtraction saturates at 0 exactly like `Math.max(0, n-1)`). -/
def traceExitFn (cfg : ClientConfig) (functionName : String) (returnValue : Option String)
    (error : Option String) (now : Nat) (ctx : TraceContext) : TraceContext × List Event :=
  let functionCall := ctx.functionStack.head?
  let executionTime := functionCall.map (fun f => now - f.startTime)
  let ctxPopped : TraceContext := { ctx with functionStack := ctx.functionStack.tail }
  let events := traceFn cfg .exit functionName (exitMessage functionName returnValue error)
      (if error.isSome then none else returnValue) executionTime ctxPopped
  ({ ctxPopped with nestingLevel := ctx.nestingLevel - 1 }, events)

/-- `log(level, message, data?)` on a resolved context: the emitted event's
nesting level is `ctx.nestingLevel + 1` when `functionStack` is non-empty,
else `ctx.nestingLevel` (`ctx?.nestingLevel || 0` equals `ctx.nestingLevel`
because the resolved context always exists and `0 || 0 === 0`).  Plain logs
are not gated by `enableTracing` or the filters. -/
def logFn (message : String) (ctx : TraceContext) : List Event :=
  let logNestingLevel :=
    if ctx.functionStack.length > 0 then ctx.nestingLevel + 1 else ctx.nestingLevel
  [{ kind := .plainLog, functionName := none, message := message,
     threadId := ctx.threadId, nestingLevel := logNestingLevel,
     returnValue := none, executionTime := none }]

/-- One producer-side call against its resolved context. -/
inductive Op where
  | entry (functionName : String) (args : Option String) (now : Nat)
  | exitOp (functionName : String) (returnValue : Option String)
      (error : Option String) (now : Nat)
  | logOp (message : String)

/-- Apply one call to the context, returning the new context and the events
it emitted. -/
def step (cfg : ClientConfig) (ctx : TraceContext) : Op → TraceContext × List Event
  | .entry functionName args now => traceEntryFn cfg functionName args now ctx
  | .exitOp functionName rv err now => traceExitFn cfg functionName rv err now ctx
  | .logOp message => (ctx, logFn message ctx)

/-- Run a sequence of calls, concatenating the emitted events in order. -/
def runOps (cfg : ClientConfig) : List Op → TraceContext → TraceContext × List Event
  | [], ctx => (ctx, [])
  | op :: ops, ctx =>
    let r := step cfg ctx op
    let r' := runOps cfg ops r.1
    (r'.1, r.2 ++ r'.2)

/-- A freshly created context: `{threadId, nestingLevel: 0, functionStack: [],
filters}` as built by `getOrCreateContext`. -/
def freshContext (threadId : Nat) (filters : Filters) : TraceContext :=
  { threadId := threadId, nestingLevel := 0, functionStack := [], filters := filters }

/-- Properly paired call sequences: every `exitOp` matches the most recent
unmatched `entry` (same function name); plain logs may appear anywhere. -/
inductive Paired : List Op → Prop where
  | nil : Paired []
  | log (message : String) (l : List Op) : Paired l → Paired (Op.logOp message :: l)
  | pair (functionName : String) (args : Option String) (t : Nat)
      (returnValue : Option String) (error : Option String) (t' : Nat)
      (l₁ l₂ : List Op) : Paired l₁ → Paired l₂ →
      Paired (Op.entry functionName args t :: l₁ ++ Op.exitOp functionName returnValue error t' :: l₂)

/-! ## Producer link transport: reconnect policy -/

/-- `scheduleReconnect` (WSLogClient.ts lines 259-280): if
`reconnectAttempts >= maxRetries`, give up (no reconnect is scheduled);
otherwise the delay is `Math.min(1000 * Math.pow(2, attempts), 30000)` and
the attempt counter is incremented.  Returns `some (delay, newAttempts)` or
`none` when giving up. -/
def scheduleReconnect (maxRetries attempts : Nat) : Option (Nat × Nat) :=
  if maxRetries ≤ attempts then none
  else some (min (1000 * 2 ^ attempts) 30000, attempts + 1)

/-- The `onopen` handler sets `this.reconnectAttempts = 0`. -/
def onOpenReset (_attempts : Nat) : Nat := 0

/-- The delays produced by up to `n` consecutive failed attempts starting
from the given attempt counter (each failure invokes `scheduleReconnect`
once; the run stops when it gives up). -/
def failDelays (maxRetries : Nat) : Nat → Nat → List Nat
  | _, 0 => []
  | attempts, n + 1 =>
    match scheduleReconnect maxRetries attempts with
    | none => []
    | some (d, a') => d :: failDelays maxRetries a' n

/-! ## Broker: route lookup, persistence, broadcast -/

/-- `capture` values of a route configuration. -/
inductive Capture where
  | full
  | payloadOnly
  | bodyOnly
deriving DecidableEq

/-- `RouteConfig` from `@wslog/shared` (the fields the broker dispatch
reads).  `capture` is optional; any value other than `payloadOnly` and
`bodyOnly` — including an absent one — takes the `full` branch. -/
structure RouteConfig where
  route : String
  output : String
  capture : Option Capture
deriving DecidableEq

/-- JavaScript `haystack.startsWith(needle)`, modelled over the string's
character sequence. -/
def jsStartsWith (s p : String) : Bool := p.data.isPrefixOf s.data

/-- One iteration of the `getRouteConfig` loop: the running `match`/`maxLen`
pair is replaced when `route.startsWith(routeConfig.route) &&
routeConfig.route.length > maxLen` (with `maxLen = -1` while no match is
held, so any matching route beats it). -/
def updateMatch (route : String) (acc : Option RouteConfig) (rc : RouteConfig) :
    Option RouteConfig :=
  match acc with
  | none => if jsStartsWith route rc.route then some rc else none
  | some m =>
    if jsStartsWith route rc.route && m.route.length < rc.route.length then some rc
    else some m

/-- `getRouteConfig(route)`: longest-prefix match over the configured
routes, `null` when no configured route is a prefix of the incoming one. -/
def getRouteConfig (routes : List RouteConfig) (route : String) : Option RouteConfig :=
  routes.foldl (updateMatch route) none

/-- The broker-side view of an event: the fields its filters inspect.  The
whole event is persisted and broadcast as an opaque `data` payload. -/
structure BrokerEvent where
  level : String
  source : Option String
  message : String
deriving DecidableEq

/-- Per-link subscription filters (`client.info.filters`); regex patterns
abstracted as predicates. -/
structure SubFilters where
  levels : Option (List String)
  sources : Option (List String)
  regexInclude : Option (List (String → Bool))
  regexExclude : Option (List (String → Bool))

/-- A broker link (`ClientConnection` + its `ConnectionInfo`): `route` is
the link's "current route", set only by `handleSubscription`. -/
structure ClientConn where
  id : String
  route : Option String
  subscriptions : List String
  filters : Option SubFilters

/-- JavaScript `a || b` on an optional string: an absent or empty (falsy)
string falls through to the fallback. -/
def jsStringOr (v : Option String) (fallback : String) : String :=
  match v with
  | some s => if s == "" then fallback else s
  | none => fallback

/-- A record written to a route's sink, per the `capture` mode. -/
inductive PersistRecord where
  | fullRec (timestamp clientId : String) (route : Option String)
      (msgType : String) (data : BrokerEvent)
  | payloadRec (timestamp : String) (data : BrokerEvent)
  | bodyRec (data : BrokerEvent)
deriving DecidableEq

/-- `processLogMessage`: shape of the persisted record by `capture`
(`payloadOnly` / `bodyOnly` / everything else `full`); the `full` record's
`route` field is `client.route`. -/
def processLogMessage (rc : RouteConfig) (ev : BrokerEvent) (client : ClientConn)
    (now : String) : PersistRecord :=
  match rc.capture with
  | some .payloadOnly => .payloadRec now ev
  | some .bodyOnly => .bodyRec ev
  | _ => .fullRec now client.id client.route "log" ev

/-- `processTraceEntry`: identical to `processLogMessage` except the
record's `type` tag is `"trace"`. -/
def processTraceEntry (rc : RouteConfig) (ev : BrokerEvent) (client : ClientConn)
    (now : String) : PersistRecord :=
  match rc.capture with
  | some .payloadOnly => .payloadRec now ev
  | some .bodyOnly => .bodyRec ev
  | _ => .fullRec now client.id client.route "trace" ev

/-- The broker's reply to an inbound log/trace frame. -/
inductive ServerReply where
  | statusOk
  | errorNoRoute
deriving DecidableEq

/-- Observable outcome of dispatching one inbound log/trace frame: the
reply sent back, the record persisted (if any), and the route a broadcast
was issued on (if any). -/
structure DispatchResult where
  reply : ServerReply
  persisted : Option PersistRecord
  broadcastRoute : Option String
deriving DecidableEq

/-- `handleLogMessage`: dispatch route is
`message.route || client.route || '/'`; without a route configuration reply
`error` and neither persist nor broadcast; otherwise persist per capture,
broadcast on the dispatch route, and ack. -/
def handleLogMessage (routes : List RouteConfig) (client : ClientConn)
    (msgRoute : Option String) (ev : BrokerEvent) (now : String) : DispatchResult :=
  let route := jsStringOr msgRoute (jsStringOr client.route "/")
  match getRouteConfig routes route with
  | none => ⟨.errorNoRoute, none, none⟩
  | some rc => ⟨.statusOk, some (processLogMessage rc ev client now), some route⟩

/-- `handleTraceMessage`: as `handleLogMessage` but the fallback dispatch
route is `'/trace'`. -/
def handleTraceMessage (routes : List RouteConfig) (client : ClientConn)
    (msgRoute : Option String) (ev : BrokerEvent) (now : String) : DispatchResult :=
  let route := jsStringOr msgRoute (jsStringOr client.route "/trace")
  match getRouteConfig routes route with
  | none => ⟨.errorNoRoute, none, none⟩
  | some rc => ⟨.statusOk, some (processTraceEntry rc ev client now), some route⟩

/-- `handleSubscription`: push the route (exact string, no normalisation)
onto the link's subscription list if absent, store filters when given, and
set the link's current route. -/
def handleSubscription (client : ClientConn) (msgRoute : Option String)
    (filters : Option SubFilters) : ClientConn :=
  let route := jsStringOr msgRoute "/"
  { client with
    subscriptions :=
      if client.subscriptions.contains route then client.subscriptions
      else client.subscriptions ++ [route],
    filters := match filters with | some f => some f | none => client.filters,
    route := some route }

/-- `shouldSendToClient`: the per-subscriber filter conjunction (levels,
sources, include patterns, exclude patterns — all applicable stages must
pass). -/
def shouldSendToClient (client : ClientConn) (ev : BrokerEvent) : Bool :=
  match client.filters with
  | none => true
  | some f =>
    (match f.levels with
     | some levels => levels.length == 0 || levels.contains ev.level
     | none => true) &&
    (match f.sources with
     | some sources =>
       sources.length == 0 ||
         (match ev.source with
          | some s => sources.contains s
          | none => false)
     | none => true) &&
    (match f.regexInclude with
     | some pats => pats.length == 0 || pats.any (fun p => p ev.message)
     | none => true) &&
    (match f.regexExclude with
     | some pats => pats.length == 0 || !(pats.any (fun p => p ev.message))
     | none => true)

/-- `broadcastToSubscribers`: an event goes to exactly the links whose
`subscriptions` list contains the dispatch route (exact string membership)
and whose filters accept it. -/
def broadcastToSubscribers (clients : List ClientConn) (ev : BrokerEvent)
    (route : String) : List ClientConn :=
  clients.filter (fun c => c.subscriptions.contains route && shouldSendToClient c ev)

/-! ## Concrete fixtures used by witnesses and counterexamples -/

/-- A tracing-enabled configuration with unlimited trace level. -/
def cfg0 : ClientConfig := { enableTracing := true, maxTraceLevel := -1 }

/-- Empty filter lists. -/
def noFilters : Filters := { regexInclude := [], regexExclude := [] }

/-- A context whose include list matches "an important message" and whose
exclude list matches everything (include must win). -/
def ctx3 : TraceContext :=
  { threadId := 1, nestingLevel := 0, functionStack := [],
    filters := { regexInclude := [fun s => s == "an important message"],
                 regexExclude := [fun _ => true] } }

/-- The three configured routes of the longest-prefix scenario. -/
def demoRoutes : List RouteConfig :=
  [⟨"/", "./wslog-requests.jsonl", some .full⟩,
   ⟨"/trace", "./trace.log", some .full⟩,
   ⟨"/trace/deep", "./deep.log", some .full⟩]

/-- A broker event fixture. -/
def ev0 : BrokerEvent := { level := "info", source := none, message := "m" }

/-- A link that has never subscribed: its current route is absent. -/
def clientNoRoute : ClientConn :=
  { id := "c1", route := none, subscriptions := [], filters := none }

/-- A link subscribed only to the root route. -/
def rootSubscriber : ClientConn :=
  { id := "c2", route := some "/", subscriptions := ["/"], filters := none }

/-- A link subscribed to /trace with no filters. -/
def traceSubscriber : ClientConn :=
  { id := "c3", route := some "/trace", subscriptions := ["/trace"], filters := none }

/-- A single catch-all route configured with full capture. -/
def routes8 : List RouteConfig := [⟨"/", "./wslog-requests.jsonl", some .full⟩]

/-- Routes exercising the payloadOnly and bodyOnly capture modes. -/
def routesW : List RouteConfig :=
  [⟨"/logs", "./logs.jsonl", some .payloadOnly⟩,
   ⟨"/trace", "./trace.log", some .bodyOnly⟩]

/-! ## Theorems -/

theorem shouldTraceMessage_factor (maxTraceLevel : Int) (message : String) (ctx : TraceContext) :
    shouldTraceMessage maxTraceLevel message ctx =
      (!(levelDrop maxTraceLevel ctx.nestingLevel) && patternFilter ctx.filters message) := by
  unfold shouldTraceMessage levelDrop patternFilter
  cases h0 : (maxTraceLevel == 0) <;>
    cases h1 : (maxTraceLevel != -1 && (ctx.nestingLevel : Int) > maxTraceLevel) <;>
      simp [h0, h1]

theorem runOps_append (cfg : ClientConfig) (l₁ l₂ : List Op) (ctx : TraceContext) :
    runOps cfg (l₁ ++ l₂) ctx =
      ((runOps cfg l₂ (runOps cfg l₁ ctx).1).1,
       (runOps cfg l₁ ctx).2 ++ (runOps cfg l₂ (runOps cfg l₁ ctx).1).2) := by
  induction l₁ generalizing ctx with
  | nil => simp [runOps]
  | cons op ops ih => simp [runOps, ih, List.append_assoc]

theorem traceFn_nestingLevel (cfg : ClientConfig) (kind : EvKind)
    (functionName message : String) (returnValue : Option String)
    (executionTime : Option Nat) (ctx : TraceContext) :
    ∀ e ∈ traceFn cfg kind functionName message returnValue executionTime ctx,
      e.nestingLevel = ctx.nestingLevel := by
  intro e he
  unfold traceFn at he
  split at he
  · simp at he
  · split at he
    · simp at he
    · simp at he
      simp [he]

theorem traceEntryFn_events_level (cfg : ClientConfig) (functionName : String)
    (args : Option String) (t : Nat) (ctx : TraceContext) :
    ∀ e ∈ (traceEntryFn cfg functionName args t ctx).2,
      e.nestingLevel = ctx.nestingLevel + 1 := by
  intro e he
  have h := traceFn_nestingLevel cfg .entry functionName (entryMessage functionName args)
    none none (traceEntryFn cfg functionName args t ctx).1 e he
  simpa [traceEntryFn] using h

theorem traceExitFn_events_level (cfg : ClientConfig) (functionName : String)
    (returnValue error₀ : Option String) (t : Nat) (ctx : TraceContext) :
    ∀ e ∈ (traceExitFn cfg functionName returnValue error₀ t ctx).2,
      e.nestingLevel = ctx.nestingLevel := by
  intro e he
  simp only [traceExitFn] at he
  have h := traceFn_nestingLevel cfg .exit functionName
    (exitMessage functionName returnValue error₀)
    (if error₀.isSome then none else returnValue)
    (ctx.functionStack.head?.map (fun f => t - f.startTime))
    { ctx with functionStack := ctx.functionStack.tail } e he
  simpa using h

theorem updateMatch_none_def (route : String) (rc : RouteConfig) :
    updateMatch route none rc =
      if jsStartsWith route rc.route then some rc else none := rfl

theorem updateMatch_some_def (route : String) (m rc : RouteConfig) :
    updateMatch route (some m) rc =
      if jsStartsWith route rc.route && m.route.length < rc.route.length then some rc
      else some m := rfl

theorem updateMatch_eq_none (route : String) (acc : Option RouteConfig) (rc : RouteConfig) :
    updateMatch route acc rc = none ↔
      acc = none ∧ jsStartsWith route rc.route = false := by
  cases acc with
  | none =>
    rw [updateMatch_none_def]
    cases h : jsStartsWith route rc.route <;> simp [h]
  | some m =>
    rw [updateMatch_some_def]
    split <;> simp

theorem foldl_updateMatch_eq_none (route : String) (routes : List RouteConfig) :
    ∀ acc : Option RouteConfig,
      routes.foldl (updateMatch route) acc = none ↔
        acc = none ∧ ∀ rc ∈ routes, jsStartsWith route rc.route = false := by
  induction routes with
  | nil => intro acc; simp
  | cons rc rest ih =>
    intro acc
    have hstep := ih (updateMatch route acc rc)
    simp only [List.foldl_cons, hstep, updateMatch_eq_none]
    constructor
    · rintro ⟨⟨h1, h2⟩, h3⟩
      refine ⟨h1, ?_⟩
      intro rc' hmem
      rcases List.mem_cons.mp hmem with rfl | hmem'
      · exact h2
      · exact h3 rc' hmem'
    · rintro ⟨h1, h2⟩
      exact ⟨⟨h1, h2 rc (List.mem_cons_self rc rest)⟩,
             fun rc' h => h2 rc' (List.mem_cons_of_mem rc h)⟩

theorem foldl_updateMatch_acc_le (route : String) (routes : List RouteConfig) :
    ∀ (a m : RouteConfig), routes.foldl (updateMatch route) (some a) = some m →
      a.route.length ≤ m.route.length := by
  induction routes with
  | nil =>
    intro a m h
    simp at h
    simp [h]
  | cons rc rest ih =>
    intro a m h
    simp only [List.foldl_cons, updateMatch_some_def] at h
    by_cases hcond : (jsStartsWith route rc.route && decide (a.route.length < rc.route.length)) = true
    · rw [if_pos hcond] at h
      have hlt : a.route.length < rc.route.length := by
        have := (Bool.and_eq_true _ _).mp hcond
        exact of_decide_eq_true this.2
      have hle := ih rc m h
      omega
    · rw [if_neg hcond] at h
      exact ih a m h

theorem foldl_updateMatch_mem (route : String) (routes : List RouteConfig) :
    ∀ (acc : Option RouteConfig) (m : RouteConfig),
      routes.foldl (updateMatch route) acc = some m →
      acc = some m ∨ (m ∈ routes ∧ jsStartsWith route m.route = true) := by
  induction routes with
  | nil =>
    intro acc m h
    simp at h
    simp [h]
  | cons rc rest ih =>
    intro acc m h
    rcases ih (updateMatch route acc rc) m (by simpa using h) with h' | ⟨hm, hsw⟩
    · cases acc with
      | none =>
        rw [updateMatch_none_def] at h'
        by_cases hsw : jsStartsWith route rc.route = true
        · rw [if_pos hsw] at h'
          have hm : m = rc := by injection h'.symm
          exact Or.inr ⟨by simp [hm], by simpa [hm] using hsw⟩
        · rw [if_neg hsw] at h'
          exact absurd h' (by simp)
      | some a =>
        rw [updateMatch_some_def] at h'
        by_cases hcond : (jsStartsWith route rc.route && decide (a.route.length < rc.route.length)) = true
        · rw [if_pos hcond] at h'
          have hm : m = rc := by injection h'.symm
          have hsw := ((Bool.and_eq_true _ _).mp hcond).1
          exact Or.inr ⟨by simp [hm], by simpa [hm] using hsw⟩
        · rw [if_neg hcond] at h'
          have hm : a = m := by injection h'
          exact Or.inl (by simp [hm])
    · exact Or.inr ⟨List.mem_cons_of_mem rc hm, hsw⟩

theorem foldl_updateMatch_dominates (route : String) (routes : List RouteConfig) :
    ∀ (acc : Option RouteConfig) (m rc' : RouteConfig),
      routes.foldl (updateMatch route) acc = some m →
      rc' ∈ routes → jsStartsWith route rc'.route = true →
      rc'.route.length ≤ m.route.length := by
  induction routes with
  | nil =>
    intro acc m rc' _ hmem
    simp at hmem
  | cons rc rest ih =>
    intro acc m rc' h hmem hsw
    have hfold : rest.foldl (updateMatch route) (updateMatch route acc rc) = some m := by
      simpa using h
    rcases List.mem_cons.mp hmem with rfl | hmem'
    · cases acc with
      | none =>
        have hu : updateMatch route none rc' = some rc' := by
          rw [updateMatch_none_def, if_pos hsw]
        rw [hu] at hfold
        exact foldl_updateMatch_acc_le route rest rc' m hfold
      | some a =>
        by_cases hlt : a.route.length < rc'.route.length
        · have hu : updateMatch route (some a) rc' = some rc' := by
            rw [updateMatch_some_def, if_pos (by simp [hsw, hlt])]
          rw [hu] at hfold
          exact foldl_updateMatch_acc_le route rest rc' m hfold
        · have hu : updateMatch route (some a) rc' = some a := by
            rw [updateMatch_some_def, if_neg (by simp [hlt])]
          rw [hu] at hfold
          have := foldl_updateMatch_acc_le route rest a m hfold
          omega
    · exact ih _ m rc' hfold hmem' hsw

theorem step_inv (cfg : ClientConfig) (ctx : TraceContext) (op : Op)
    (h : ctx.nestingLevel = ctx.functionStack.length) :
    (step cfg ctx op).1.nestingLevel = (step cfg ctx op).1.functionStack.length := by
  cases op with
  | entry n a t => simp [step, traceEntryFn, h]
  | exitOp n rv err t =>
    cases hs : ctx.functionStack with
    | nil =>
      have : ctx.nestingLevel = 0 := by rw [h, hs]; rfl
      simp [step, traceExitFn, hs, this]
    | cons f rest =>
      have : ctx.nestingLevel = rest.length + 1 := by rw [h, hs]; rfl
      simp [step, traceExitFn, hs, this]
  | logOp m => simpa [step] using h

theorem runOps_inv (cfg : ClientConfig) (ops : List Op) :
    ∀ ctx : TraceContext, ctx.nestingLevel = ctx.functionStack.length →
      (runOps cfg ops ctx).1.nestingLevel = (runOps cfg ops ctx).1.functionStack.length := by
  induction ops with
  | nil => intro ctx h; simpa [runOps] using h
  | cons op rest ih =>
    intro ctx h
    simpa [runOps] using ih (step cfg ctx op).1 (step_inv cfg ctx op h)

theorem failDelays_eq (maxRetries : Nat) :
    ∀ n attempts : Nat,
      failDelays maxRetries attempts n =
        (List.range (min n (maxRetries - attempts))).map
          (fun k => min (1000 * 2 ^ (attempts + k)) 30000) := by
  intro n
  induction n with
  | zero => intro a; simp [failDelays]
  | succ n ih =>
    intro a
    by_cases h : maxRetries ≤ a
    · have h0 : maxRetries - a = 0 := by omega
      simp [failDelays, scheduleReconnect, h, h0]
    · have h2 : min (n + 1) (maxRetries - a) = min n (maxRetries - (a + 1)) + 1 := by omega
      rw [failDelays]
      simp only [scheduleReconnect, if_neg h]
      rw [ih (a + 1), h2, List.range_succ_eq_map]
      simp only [List.map_cons, List.map_map, Nat.add_zero]
      refine congrArg₂ _ rfl ?_
      refine List.map_congr_left ?_
      intro k _
      have h3 : a + 1 + k = a + (k + 1) := by omega
      simp [Function.comp, h3]

/-- A properly paired sequence restores both the nesting level and the exact
function stack. -/
theorem paired_preserves (cfg : ClientConfig) (l : List Op) (h : Paired l)
    (ctx : TraceContext) :
    (runOps cfg l ctx).1.nestingLevel = ctx.nestingLevel ∧
      (runOps cfg l ctx).1.functionStack = ctx.functionStack := by
  induction h generalizing ctx with
  | nil => exact ⟨rfl, rfl⟩
  | log message l _ ih =>
    simpa [runOps, step] using ih ctx
  | pair functionName args t returnValue error t' l₁ l₂ _ _ ih₁ ih₂ =>
    have hstep : runOps cfg (Op.entry functionName args t :: l₁
        ++ Op.exitOp functionName returnValue error t' :: l₂) ctx =
        ((runOps cfg (l₁ ++ Op.exitOp functionName returnValue error t' :: l₂)
          (step cfg ctx (Op.entry functionName args t)).1).1,
         (step cfg ctx (Op.entry functionName args t)).2 ++
          (runOps cfg (l₁ ++ Op.exitOp functionName returnValue error t' :: l₂)
            (step cfg ctx (Op.entry functionName args t)).1).2) := by
      simp [runOps]
    rw [hstep, runOps_append]
    set ctx₁ := (step cfg ctx (Op.entry functionName args t)).1 with hctx₁
    have h₁ := ih₁ ctx₁
    have hlvl₁ : ctx₁.nestingLevel = ctx.nestingLevel + 1 := by
      simp [hctx₁, step, traceEntryFn]
    have hstk₁ : ctx₁.functionStack =
        ⟨functionName, t, ctx.nestingLevel + 1⟩ :: ctx.functionStack := by
      simp [hctx₁, step, traceEntryFn]
    set ctx₂ := (runOps cfg l₁ ctx₁).1 with hctx₂
    have hex : (runOps cfg (Op.exitOp functionName returnValue error t' :: l₂) ctx₂) =
        ((runOps cfg l₂ (step cfg ctx₂ (Op.exitOp functionName returnValue error t')).1).1,
         (step cfg ctx₂ (Op.exitOp functionName returnValue error t')).2 ++
          (runOps cfg l₂ (step cfg ctx₂ (Op.exitOp functionName returnValue error t')).1).2) := by
      simp [runOps]
    rw [hex]
    set ctx₃ := (step cfg ctx₂ (Op.exitOp functionName returnValue error t')).1 with hctx₃
    have hlvl₃ : ctx₃.nestingLevel = ctx.nestingLevel ∧
        ctx₃.functionStack = ctx.functionStack := by
      constructor
      · simp [hctx₃, step, traceExitFn, h₁.1, hlvl₁]
      · simp [hctx₃, step, traceExitFn, h₁.2, hstk₁]
    have h₂ := ih₂ ctx₃
    exact ⟨h₂.1.trans hlvl₃.1, h₂.2.trans hlvl₃.2⟩

/-- C1: for every producer context and every properly paired sequence of
traceEntry/traceExit calls (each traceExit matching the most recent
unmatched traceEntry), the context's final nestingLevel equals its initial
nestingLevel and its functionStack returns to its initial depth. -/
theorem C1_paired_calls_restore_context (cfg : ClientConfig) (ops : List Op)
    (h : Paired ops) (ctx : TraceContext) :
    (runOps cfg ops ctx).1.nestingLevel = ctx.nestingLevel ∧
      (runOps cfg ops ctx).1.functionStack.length = ctx.functionStack.length := by
  obtain ⟨h1, h2⟩ := paired_preserves cfg ops h ctx
  exact ⟨h1, by rw [h2]⟩

theorem C1_witness :
    (runOps cfg0 [Op.entry "a" none 0, Op.entry "b" none 1,
        Op.exitOp "b" none none 2, Op.exitOp "a" none none 3]
      (freshContext 1 noFilters)).1.nestingLevel = 0 ∧
    (runOps cfg0 [Op.entry "a" none 0, Op.entry "b" none 1,
        Op.exitOp "b" none none 2, Op.exitOp "a" none none 3]
      (freshContext 1 noFilters)).1.functionStack.length = 0 :=
  C1_paired_calls_restore_context cfg0 _
    (Paired.pair "a" none 0 none none 3
      [Op.entry "b" none 1, Op.exitOp "b" none none 2] []
      (Paired.pair "b" none 1 none none 2 [] [] Paired.nil Paired.nil) Paired.nil)
    (freshContext 1 noFilters)

/-- C2: if traceEntry emits its entry event at depth d = initial level + 1,
then the matching traceExit (after any properly paired inner calls) emits
its exit event at the same depth d, and only afterwards decrements the
context's nestingLevel (the post-exit level is d - 1). -/
theorem C2_exit_emits_at_entry_depth (cfg : ClientConfig) (functionName : String)
    (args : Option String) (t : Nat) (returnValue error₀ : Option String) (t' : Nat)
    (inner : List Op) (h : Paired inner) (ctx : TraceContext) :
    ((traceEntryFn cfg functionName args t ctx).2.all
        (fun e => e.nestingLevel == ctx.nestingLevel + 1) = true) ∧
    ((traceExitFn cfg functionName returnValue error₀ t'
        (runOps cfg (Op.entry functionName args t :: inner) ctx).1).2.all
        (fun e => e.nestingLevel == ctx.nestingLevel + 1) = true) ∧
    (traceExitFn cfg functionName returnValue error₀ t'
        (runOps cfg (Op.entry functionName args t :: inner) ctx).1).1.nestingLevel
      = ctx.nestingLevel := by
  have hs₁ : (runOps cfg (Op.entry functionName args t :: inner) ctx).1.nestingLevel
      = ctx.nestingLevel + 1 := by
    have hrun : (runOps cfg (Op.entry functionName args t :: inner) ctx).1
        = (runOps cfg inner (traceEntryFn cfg functionName args t ctx).1).1 := by
      simp [runOps, step]
    rw [hrun, (paired_preserves cfg inner h _).1]
    simp [traceEntryFn]
  refine ⟨?_, ?_, ?_⟩
  · rw [List.all_eq_true]
    intro e he
    simp [traceEntryFn_events_level cfg functionName args t ctx e he]
  · rw [List.all_eq_true]
    intro e he
    simp [traceExitFn_events_level cfg functionName returnValue error₀ t' _ e he, hs₁]
  · have : (traceExitFn cfg functionName returnValue error₀ t'
        (runOps cfg (Op.entry functionName args t :: inner) ctx).1).1.nestingLevel
        = (runOps cfg (Op.entry functionName args t :: inner) ctx).1.nestingLevel - 1 := rfl
    rw [this, hs₁]
    simp

theorem C2_witness :
    ((traceEntryFn cfg0 "f" none 10 (freshContext 1 noFilters)).2.all
        (fun e => e.nestingLevel == (freshContext 1 noFilters).nestingLevel + 1) = true) ∧
    ((traceExitFn cfg0 "f" (some "42") none 20
        (runOps cfg0 [Op.entry "f" none 10] (freshContext 1 noFilters)).1).2.all
        (fun e => e.nestingLevel == (freshContext 1 noFilters).nestingLevel + 1) = true) ∧
    (traceExitFn cfg0 "f" (some "42") none 20
        (runOps cfg0 [Op.entry "f" none 10] (freshContext 1 noFilters)).1).1.nestingLevel
      = (freshContext 1 noFilters).nestingLevel :=
  C2_exit_emits_at_entry_depth cfg0 "f" none 10 (some "42") none 20 [] Paired.nil
    (freshContext 1 noFilters)

/-- C3: with a non-empty include-pattern list, the pattern stage of
producer-side filtering passes exactly when some include pattern matches
the message, and the outcome of shouldTraceMessage is unchanged by
replacing the exclude-pattern list with any other (excludes are never
consulted). -/
theorem C3_include_wins (maxTraceLevel : Int) (message : String) (ctx : TraceContext)
    (exc' : List (String → Bool)) (hinc : ctx.filters.regexInclude ≠ []) :
    (patternFilter ctx.filters message
        = ctx.filters.regexInclude.any (fun r => r message)) ∧
    (shouldTraceMessage maxTraceLevel message ctx
        = shouldTraceMessage maxTraceLevel message
            { ctx with filters := { regexInclude := ctx.filters.regexInclude,
                                    regexExclude := exc' } }) := by
  have hlen : 0 < ctx.filters.regexInclude.length := List.length_pos.mpr hinc
  have h1 : patternFilter ctx.filters message
      = ctx.filters.regexInclude.any (fun r => r message) := by
    unfold patternFilter
    rw [if_pos hlen]
  refine ⟨h1, ?_⟩
  rw [shouldTraceMessage_factor, shouldTraceMessage_factor]
  have h2 : patternFilter
      { regexInclude := ctx.filters.regexInclude, regexExclude := exc' } message
      = ctx.filters.regexInclude.any (fun r => r message) := by
    unfold patternFilter
    rw [if_pos hlen]
  simp [h1, h2]

theorem C3_witness :
    (patternFilter ctx3.filters "an important message"
        = ctx3.filters.regexInclude.any (fun r => r "an important message")) ∧
    (shouldTraceMessage (-1) "an important message" ctx3
        = shouldTraceMessage (-1) "an important message"
            { ctx3 with filters := { regexInclude := ctx3.filters.regexInclude,
                                     regexExclude := [] } }) :=
  C3_include_wins (-1) "an important message" ctx3 [] (by simp [ctx3])

/-- C4 counterexample: at configured maxTraceLevel = -2 and nestingLevel 0
the code's trace-level rule drops the event (the constructor defaulting
keeps -2, and any value other than -1 with nestingLevel > it drops), while
the claimed rule "drop iff maxTraceLevel ≥ 0 and nestLevel > maxTraceLevel"
says it is not dropped. -/
theorem C4_counterexample :
    levelDrop (effectiveMaxTraceLevel (some (-2))) 0 = true ∧
      ((decide ((0 : Int) ≤ -2)) && (decide (((0 : Nat) : Int) > -2))) = false := by
  decide

/-- C4 amended: for a configured maxTraceLevel c, the trace-level rule
drops an event at a given nestingLevel iff c is provided and either
1 ≤ c ∧ nestingLevel > c, or c ≤ -2.  (An absent or zero configured value
becomes -1, which never drops; any value ≤ -2 drops every event.) -/
theorem C4_level_rule (c : Option Int) (lvl : Nat) :
    levelDrop (effectiveMaxTraceLevel c) lvl = true ↔
      ∃ v, c = some v ∧ ((1 ≤ v ∧ (lvl : Int) > v) ∨ v ≤ -2) := by
  cases c with
  | none => simp [effectiveMaxTraceLevel, levelDrop]
  | some v =>
    simp only [Option.some.injEq]
    by_cases h0 : v = 0
    · simp [h0, effectiveMaxTraceLevel, levelDrop]
    · have he : effectiveMaxTraceLevel (some v) = v := by
        simp [effectiveMaxTraceLevel, h0]
      rw [he]
      simp only [levelDrop, Bool.or_eq_true, Bool.and_eq_true, beq_iff_eq, bne_iff_ne,
        decide_eq_true_eq, gt_iff_lt]
      constructor
      · rintro (h | ⟨h1, h2⟩)
        · exact absurd h h0
        · exact ⟨v, rfl, by omega⟩
      · rintro ⟨w, hw, h⟩
        cases hw
        right
        constructor
        · omega
        · omega

/-- C5: a plain log resolves its event's nestingLevel to
ctx.nestingLevel + 1 when the functionStack is non-empty and to
ctx.nestingLevel otherwise; consequently a log issued after an entry at
depth d (with any properly paired calls in between) carries depth d + 1. -/
theorem C5_log_depth (cfg : ClientConfig) (functionName : String)
    (args : Option String) (t : Nat) (message : String) (inner : List Op)
    (h : Paired inner) (ctx : TraceContext) :
    ((logFn message ctx).map Event.nestingLevel
        = [if ctx.functionStack.length > 0 then ctx.nestingLevel + 1
           else ctx.nestingLevel]) ∧
    ((step cfg (runOps cfg (Op.entry functionName args t :: inner) ctx).1
        (Op.logOp message)).2.map Event.nestingLevel
      = [ctx.nestingLevel + 2]) := by
  constructor
  · simp [logFn]
  · have hrun : (runOps cfg (Op.entry functionName args t :: inner) ctx).1
        = (runOps cfg inner (traceEntryFn cfg functionName args t ctx).1).1 := by
      simp [runOps, step]
    obtain ⟨hl, hs⟩ := paired_preserves cfg inner h (traceEntryFn cfg functionName args t ctx).1
    have hstack : (runOps cfg inner
        (traceEntryFn cfg functionName args t ctx).1).1.functionStack.length
        = ctx.functionStack.length + 1 := by
      rw [hs]; simp [traceEntryFn]
    have hlvl : (runOps cfg inner
        (traceEntryFn cfg functionName args t ctx).1).1.nestingLevel
        = ctx.nestingLevel + 1 := by
      rw [hl]; simp [traceEntryFn]
    rw [hrun]
    simp [step, logFn, hstack, hlvl]

theorem C5_witness :
    ((logFn "hi" (freshContext 1 noFilters)).map Event.nestingLevel
        = [if (freshContext 1 noFilters).functionStack.length > 0
           then (freshContext 1 noFilters).nestingLevel + 1
           else (freshContext 1 noFilters).nestingLevel]) ∧
    ((step cfg0 (runOps cfg0 [Op.entry "a" none 0] (freshContext 1 noFilters)).1
        (Op.logOp "hi")).2.map Event.nestingLevel
      = [(freshContext 1 noFilters).nestingLevel + 2]) :=
  C5_log_depth cfg0 "a" none 0 "hi" [] Paired.nil (freshContext 1 noFilters)

/-- C6: from a fresh attempt counter, the delays of consecutive failed
attempts form the sequence min(1000·2^k, 30000) ms for k = 0 … maxRetries−1
(a run of n failures yields the first min n maxRetries of them); once the
counter has reached maxRetries no reconnect is scheduled; a successful open
resets the counter to 0. -/
theorem C6_reconnect_backoff (maxRetries n attempts : Nat) (h : maxRetries ≤ attempts) :
    failDelays maxRetries 0 n =
      (List.range (min n maxRetries)).map (fun k => min (1000 * 2 ^ k) 30000) ∧
    scheduleReconnect maxRetries attempts = none ∧
    onOpenReset attempts = 0 := by
  refine ⟨?_, ?_, rfl⟩
  · simpa using failDelays_eq maxRetries n 0
  · simp [scheduleReconnect, h]

theorem C6_witness :
    failDelays 6 0 9 = [1000, 2000, 4000, 8000, 16000, 30000] ∧
    scheduleReconnect 6 6 = none ∧
    onOpenReset 6 = 0 := by
  have h := C6_reconnect_backoff 6 9 6 (by decide)
  simpa using h

/-- C7: route lookup selects a configured route that is a prefix of the
incoming route with maximal route-string length; when no configured route
is a prefix, lookup yields none and the dispatch replies with an error,
neither persisting nor broadcasting; with routes /, /trace, /trace/deep an
event to /trace/deep/x selects /trace/deep, to /trace/y selects /trace,
and to /other selects /. -/
theorem C7_longest_route_match (routes : List RouteConfig) (route : String)
    (rc rc' : RouteConfig) (routes₂ : List RouteConfig) (client₂ : ClientConn)
    (msgRoute₂ : Option String) (ev₂ : BrokerEvent) (now₂ : String)
    (h : getRouteConfig routes route = some rc) (hmem : rc' ∈ routes)
    (hsw : jsStartsWith route rc'.route = true)
    (hnone : ∀ rc₂ ∈ routes₂,
      jsStartsWith (jsStringOr msgRoute₂ (jsStringOr client₂.route "/")) rc₂.route = false) :
    (rc ∈ routes ∧ jsStartsWith route rc.route = true ∧
      rc'.route.length ≤ rc.route.length) ∧
    handleLogMessage routes₂ client₂ msgRoute₂ ev₂ now₂
      = ⟨.errorNoRoute, none, none⟩ ∧
    getRouteConfig demoRoutes "/trace/deep/x"
      = some ⟨"/trace/deep", "./deep.log", some .full⟩ ∧
    getRouteConfig demoRoutes "/trace/y" = some ⟨"/trace", "./trace.log", some .full⟩ ∧
    getRouteConfig demoRoutes "/other"
      = some ⟨"/", "./wslog-requests.jsonl", some .full⟩ := by
  have hm := foldl_updateMatch_mem route routes none rc h
  have hnone' : getRouteConfig routes₂
      (jsStringOr msgRoute₂ (jsStringOr client₂.route "/")) = none := by
    rw [getRouteConfig, foldl_updateMatch_eq_none]
    exact ⟨rfl, hnone⟩
  refine ⟨⟨?_, ?_, ?_⟩, ?_, by decide, by decide, by decide⟩
  · rcases hm with h' | ⟨hm', _⟩
    · exact absurd h' (by simp)
    · exact hm'
  · rcases hm with h' | ⟨_, hsw'⟩
    · exact absurd h' (by simp)
    · exact hsw'
  · exact foldl_updateMatch_dominates route routes none rc rc' h hmem hsw
  · simp [handleLogMessage, hnone']

theorem C7_witness :
    ((⟨"/trace", "./trace.log", some .full⟩ : RouteConfig) ∈ demoRoutes ∧
      jsStartsWith "/trace/y"
        (RouteConfig.route ⟨"/trace", "./trace.log", some .full⟩) = true ∧
      (RouteConfig.route (⟨"/", "./wslog-requests.jsonl", some .full⟩ : RouteConfig)).length
        ≤ (RouteConfig.route (⟨"/trace", "./trace.log", some .full⟩ : RouteConfig)).length) ∧
    handleLogMessage [⟨"/trace", "./trace.log", some .full⟩] clientNoRoute
      (some "/other") ev0 "T" = ⟨.errorNoRoute, none, none⟩ ∧
    getRouteConfig demoRoutes "/trace/deep/x"
      = some ⟨"/trace/deep", "./deep.log", some .full⟩ ∧
    getRouteConfig demoRoutes "/trace/y" = some ⟨"/trace", "./trace.log", some .full⟩ ∧
    getRouteConfig demoRoutes "/other"
      = some ⟨"/", "./wslog-requests.jsonl", some .full⟩ :=
  C7_longest_route_match demoRoutes "/trace/y"
    ⟨"/trace", "./trace.log", some .full⟩ ⟨"/", "./wslog-requests.jsonl", some .full⟩
    [⟨"/trace", "./trace.log", some .full⟩] clientNoRoute (some "/other") ev0 "T"
    (by decide) (by decide) (by decide) (by decide)

/-- C8 counterexample: an event dispatched on route /trace (carried on the
frame) through a full-capture route config is persisted with route field
taken from the link's current route — here absent — not from the dispatch
route /trace. -/
theorem C8_counterexample :
    (handleLogMessage routes8 clientNoRoute (some "/trace") ev0 "T").broadcastRoute
      = some "/trace" ∧
    (handleLogMessage routes8 clientNoRoute (some "/trace") ev0 "T").persisted
      = some (.fullRec "T" "c1" none "log" ev0) ∧
    (handleLogMessage routes8 clientNoRoute (some "/trace") ev0 "T").persisted
      ≠ some (.fullRec "T" "c1" (some "/trace") "log" ev0) := by
  decide

/-- C8 amended: for every inbound log or trace frame whose route resolves
to a route configuration, capture = payloadOnly persists
{timestamp, data:event}, capture = bodyOnly persists the event alone, and
any other capture (full or absent) persists
{timestamp, clientId, route, type, data:event} where route is the link's
current (last-subscribed) route, which may differ from the dispatch
route. -/
theorem C8_capture_shapes (routes : List RouteConfig) (client : ClientConn)
    (msgRoute msgRoute' : Option String) (ev : BrokerEvent) (now : String)
    (rc rc' : RouteConfig)
    (h : getRouteConfig routes
      (jsStringOr msgRoute (jsStringOr client.route "/")) = some rc)
    (h' : getRouteConfig routes
      (jsStringOr msgRoute' (jsStringOr client.route "/trace")) = some rc') :
    (handleLogMessage routes client msgRoute ev now).persisted
      = some (match rc.capture with
              | some .payloadOnly => .payloadRec now ev
              | some .bodyOnly => .bodyRec ev
              | _ => .fullRec now client.id client.route "log" ev) ∧
    (handleTraceMessage routes client msgRoute' ev now).persisted
      = some (match rc'.capture with
              | some .payloadOnly => .payloadRec now ev
              | some .bodyOnly => .bodyRec ev
              | _ => .fullRec now client.id client.route "trace" ev) := by
  constructor
  · simp [handleLogMessage, h, processLogMessage]
  · simp [handleTraceMessage, h', processTraceEntry]

theorem C8_witness :
    (handleLogMessage routesW clientNoRoute (some "/logs") ev0 "T").persisted
      = some (.payloadRec "T" ev0) ∧
    (handleTraceMessage routesW clientNoRoute none ev0 "T").persisted
      = some (.bodyRec ev0) :=
  C8_capture_shapes routesW clientNoRoute (some "/logs") none ev0 "T"
    ⟨"/logs", "./logs.jsonl", some .payloadOnly⟩
    ⟨"/trace", "./trace.log", some .bodyOnly⟩ (by decide) (by decide)

/-- C9: from a fresh context, after any sequence of traceEntry, traceExit
and log calls (paired or not) the nestingLevel equals the functionStack
length; a traceExit on an empty functionStack leaves both at zero (the
decrement saturates) and — when tracing is enabled and the filter admits
the message — still emits one exit event whose executionTime is absent. -/
theorem C9_level_equals_stack_depth (cfg cfg₂ : ClientConfig) (ops : List Op)
    (threadId threadId₂ : Nat) (filters filters₂ : Filters)
    (functionName : String) (returnValue error₀ : Option String) (now : Nat)
    (htr : cfg₂.enableTracing = true)
    (hfil : shouldTraceMessage cfg₂.maxTraceLevel
      (exitMessage functionName returnValue error₀)
      (freshContext threadId₂ filters₂) = true) :
    ((runOps cfg ops (freshContext threadId filters)).1.nestingLevel
        = (runOps cfg ops (freshContext threadId filters)).1.functionStack.length) ∧
    (traceExitFn cfg₂ functionName returnValue error₀ now
        (freshContext threadId₂ filters₂)).1.nestingLevel = 0 ∧
    (traceExitFn cfg₂ functionName returnValue error₀ now
        (freshContext threadId₂ filters₂)).1.functionStack = [] ∧
    (traceExitFn cfg₂ functionName returnValue error₀ now
        (freshContext threadId₂ filters₂)).2
      = [{ kind := .exit, functionName := some functionName,
           message := exitMessage functionName returnValue error₀,
           threadId := threadId₂, nestingLevel := 0,
           returnValue := if error₀.isSome then none else returnValue,
           executionTime := none }] := by
  refine ⟨runOps_inv cfg ops _ rfl, rfl, rfl, ?_⟩
  simp only [traceExitFn, traceFn, freshContext] at hfil ⊢
  simp [htr, hfil]

theorem C9_witness :
    ((runOps cfg0 [Op.entry "a" none 0, Op.exitOp "a" none none 1,
        Op.exitOp "a" none none 2] (freshContext 1 noFilters)).1.nestingLevel
      = (runOps cfg0 [Op.entry "a" none 0, Op.exitOp "a" none none 1,
          Op.exitOp "a" none none 2] (freshContext 1 noFilters)).1.functionStack.length) ∧
    (traceExitFn cfg0 "f" none none 7 (freshContext 2 noFilters)).1.nestingLevel = 0 ∧
    (traceExitFn cfg0 "f" none none 7 (freshContext 2 noFilters)).1.functionStack = [] ∧
    (traceExitFn cfg0 "f" none none 7 (freshContext 2 noFilters)).2
      = [{ kind := .exit, functionName := some "f",
           message := exitMessage "f" none none,
           threadId := 2, nestingLevel := 0,
           returnValue := if (none : Option String).isSome then none else none,
           executionTime := none }] :=
  C9_level_equals_stack_depth cfg0 cfg0
    [Op.entry "a" none 0, Op.exitOp "a" none none 1, Op.exitOp "a" none none 2]
    1 2 noFilters noFilters "f" none none 7 rfl (by decide)

/-- C10: a broadcast reaches only links whose subscription list contains
the dispatch route as an exact string (and whose filters accept the event);
subscription matching does no prefix matching, so a link subscribed only to
/ does not receive an event dispatched on /trace even though / is a string
prefix of /trace, while subscriptions store the exact route strings. -/
theorem C10_broadcast_exact_route (clients : List ClientConn) (ev : BrokerEvent)
    (route : String) (c : ClientConn)
    (hmem : c ∈ broadcastToSubscribers clients ev route) :
    (c ∈ clients ∧ c.subscriptions.contains route = true ∧
      shouldSendToClient c ev = true) ∧
    broadcastToSubscribers [rootSubscriber] ev0 "/trace" = [] ∧
    jsStartsWith "/trace" "/" = true ∧
    (handleSubscription clientNoRoute (some "/") none).subscriptions = ["/"] := by
  refine ⟨?_, ?_, by decide, rfl⟩
  · have h := List.mem_filter.mp hmem
    exact ⟨h.1, ((Bool.and_eq_true _ _).mp h.2).1, ((Bool.and_eq_true _ _).mp h.2).2⟩
  · rfl

theorem C10_witness :
    (traceSubscriber ∈ [traceSubscriber] ∧
      traceSubscriber.subscriptions.contains "/trace" = true ∧
      shouldSendToClient traceSubscriber ev0 = true) ∧
    broadcastToSubscribers [rootSubscriber] ev0 "/trace" = [] ∧
    jsStartsWith "/trace" "/" = true ∧
    (handleSubscription clientNoRoute (some "/") none).subscriptions = ["/"] :=
  C10_broadcast_exact_route [traceSubscriber] ev0 "/trace" traceSubscriber
    (by simp [broadcastToSubscribers, traceSubscriber, shouldSendToClient])

end Wslog
